import Mathlib

/-!
Verification of the asynchronous task-tracking and asset-materialization engine
of Suno-Local-Studio (src/server.js), via a shallow embedding.

JavaScript values are embedded as `JsVal` (numbers as `Int`; no floats are
needed by the engine).  Optional chaining `a?.b` is `JsVal.get`, `a || b` is
`jsOr`, `a && b` is `jsAnd`, following JS truthiness.  The local file system is
a finite map from absolute path to file size plus a set of directories, and the
network is an oracle `String → Option Nat` (`none` models a failed request,
`some sz` a body of `sz` bytes).  The poll scheduler is embedded as a
small-step event system (`pollStep`) whose events are timer creation, timer
callback firing, resolution of an in-flight upstream fetch, and completion of
an in-flight asset download; this makes the interleavings that `setInterval`
with an async callback allows directly expressible.
-/

inductive JsVal where
  | null
  | undefined
  | bool (b : Bool)
  | num (n : Int)
  | str (s : String)
  | arr (elems : List JsVal)
  | obj (fields : List (String × JsVal))

/-- JS truthiness: `null`, `undefined`, `false`, `0` and `""` are falsy. -/
def JsVal.truthy : JsVal → Bool
  | .null => false
  | .undefined => false
  | .bool b => b
  | .num n => n != 0
  | .str s => s != ""
  | .arr _ => true
  | .obj _ => true

/-- Property access `v?.k` / `v.k`: `undefined` on any non-object. -/
def JsVal.get : JsVal → String → JsVal
  | .obj fields, k =>
    match fields.find? (fun p => p.1 == k) with
    | some p => p.2
    | none => .undefined
  | _, _ => .undefined

/-- JS `a || b`. -/
def jsOr (a b : JsVal) : JsVal := if a.truthy then a else b

/-- JS `a && b`. -/
def jsAnd (a b : JsVal) : JsVal := if a.truthy then b else a

/-- `Array.isArray`. -/
def JsVal.isArr : JsVal → Bool
  | .arr _ => true
  | _ => false

mutual

/-- JS string coercion `v + ''` (array elements join with `,`,
`null`/`undefined` elements render empty, objects as `[object Object]`). -/
def jsToString : JsVal → String
  | .null => "null"
  | .undefined => "undefined"
  | .bool b => if b then "true" else "false"
  | .num n => toString n
  | .str s => s
  | .arr xs => jsArrToString xs
  | .obj _ => "[object Object]"

def jsArrToString : List JsVal → String
  | [] => ""
  | [x] => jsElemToString x
  | x :: y :: xs => jsElemToString x ++ "," ++ jsArrToString (y :: xs)

def jsElemToString : JsVal → String
  | .null => ""
  | .undefined => ""
  | .bool b => if b then "true" else "false"
  | .num n => toString n
  | .str s => s
  | .arr xs => jsArrToString xs
  | .obj _ => "[object Object]"

end

/-! ## String helpers (Node `path` / WHATWG `URL` fragments used by server.js).
All are written over `List Char` with structural recursion so that concrete
inputs evaluate inside the kernel. -/

/-- Substring test for one char list starting at the head of another. -/
def listStarts : List Char → List Char → Bool
  | [], _ => true
  | _ :: _, [] => false
  | a :: as, b :: bs => a == b && listStarts as bs

/-- Index of the first occurrence of `needle` in `hay`, if any. -/
def subIdx (needle : List Char) : List Char → Option Nat
  | [] => if needle.isEmpty then some 0 else none
  | c :: t => if listStarts needle (c :: t) then some 0 else (subIdx needle t).map (· + 1)

/-- ASCII upper-casing of one char (JS `toUpperCase` restricted to the ASCII
range, which covers every status string the upstream emits). -/
def asciiUpperChar (c : Char) : Char :=
  if 'a' ≤ c && c ≤ 'z' then Char.ofNat (c.toNat - 32) else c

def asciiUpper (s : String) : String := String.mk (s.toList.map asciiUpperChar)

/-- `new URL(u).pathname`, `none` when the constructor throws.  Modelled for
URLs of the shape `scheme://host/path[?query][#fragment]`: a URL is valid iff
it contains `://` with a nonempty scheme; query and fragment are stripped and
a missing path is `/`. -/
def urlPathname (u : String) : Option String :=
  match subIdx "://".toList u.toList with
  | none => none
  | some i =>
    if i = 0 then none
    else
      let after := u.toList.drop (i + 3)
      let beforeQ := after.takeWhile (fun c => c != '?' && c != '#')
      let slashPart := beforeQ.dropWhile (fun c => c != '/')
      if slashPart.isEmpty then some "/" else some (String.mk slashPart)

/-- Node `path.basename` on a URL pathname (trailing slashes stripped, then
the final segment; the all-slash corner case returns `""`). -/
def pathBasename (p : String) : String :=
  let trimmed := (p.toList.reverse.dropWhile (fun c => c == '/')).reverse
  String.mk ((trimmed.reverse.takeWhile (fun c => c != '/')).reverse)

/-- Node `path.extname`: the suffix of the basename from its last dot, empty
when there is no dot or the dot is the leading character. -/
def extnameOf (pn : String) : String :=
  let cs := (pn.toList.reverse.takeWhile (fun c => c != '/')).reverse
  let revCs := cs.reverse
  if revCs.contains '.' then
    let tailLen := (revCs.takeWhile (fun c => c != '.')).length
    let dotPos := cs.length - 1 - tailLen
    if dotPos = 0 then "" else String.mk (cs.drop dotPos)
  else ""

/-- Characters replaced by `-` in `server.js`'s title sanitizer. -/
def badFsChar (c : Char) : Bool :=
  c == '/' || c == '\\' || c == '?' || c == '%' || c == '*' || c == ':' ||
  c == '|' || c == '"' || c == '<' || c == '>'

/-- `((title) + '').replace(/[\/\\?%*:|"<>]/g, '-').slice(0,100)`. -/
def sanitizeTitle (s : String) : String :=
  String.mk ((s.toList.map (fun c => if badFsChar c then '-' else c)).take 100)

/-- JS `hay.includes(needle)` on strings. -/
def strHasSub (needle : List Char) : List Char → Bool
  | [] => needle.isEmpty
  | c :: t => listStarts needle (c :: t) || strHasSub needle t

/-! ## Response Normalizer (server.js lines 50-79) -/

def FINAL_STATUSES : List String := ["SUCCESS", "FIRST_SUCCESS"]

def ERROR_STATUSES : List String :=
  ["CREATE_TASK_FAILED", "GENERATE_AUDIO_FAILED", "SENSITIVE_WORD_ERROR", "CALLBACK_EXCEPTION"]

/-- `(typeof status === 'string') ? status.toUpperCase() : null`. -/
def statusStrOpt : JsVal → Option String
  | .str s => some (asciiUpper s)
  | _ => none

/-- `getStatusFromKieResp` (server.js lines 55-64). -/
def getStatusFromKieResp (kieResp : JsVal) : Option String :=
  let data := jsOr (kieResp.get "data") kieResp
  statusStrOpt
    (jsOr (data.get "status")
      (jsOr ((data.get "response").get "status")
        (jsAnd (kieResp.get "data") ((kieResp.get "data").get "status"))))

/-- `x || 'UNKNOWN'` on a nullable JS string. -/
def orUnknown : Option String → String
  | some s => if s = "" then "UNKNOWN" else s
  | none => "UNKNOWN"

/-- The status recorded in the registry on a successful tick:
`getStatusFromKieResp(kieResp) || 'UNKNOWN'` (server.js line 174). -/
def registryStatus (kieResp : JsVal) : String :=
  orUnknown (getStatusFromKieResp kieResp)

/-- `extractSunoData` (server.js lines 67-79).  Note it returns a `JsVal`:
the fallback branch returns `maybe.sunoData` without an array check. -/
def extractSunoData (kieResp : JsVal) : JsVal :=
  let data := jsOr (kieResp.get "data") kieResp
  let s :=
    jsOr ((data.get "response").get "sunoData")
      (jsOr (data.get "sunoData")
        (jsOr (data.get "response")
          (((data.get "data").get "response").get "sunoData")))
  if s.isArr then s
  else
    let maybe := jsOr ((kieResp.get "data").get "data") ((kieResp.get "data").get "response")
    if (maybe.get "sunoData").truthy then maybe.get "sunoData" else .arr []

/-! ## File system and download model (server.js lines 81-153) -/

/-- The local file system: files with sizes, plus existing directories. -/
structure FS where
  files : List (String × Nat)
  dirs : List String
deriving DecidableEq

def FS.size? (fs : FS) (p : String) : Option Nat :=
  (fs.files.find? (fun q => q.1 == p)).map (fun q => q.2)

/-- `fs.existsSync(p) && fs.statSync(p).size > 0`. -/
def FS.cachedNonEmpty (fs : FS) (p : String) : Bool :=
  match fs.size? p with
  | some sz => sz != 0
  | none => false

def FS.write (fs : FS) (p : String) (sz : Nat) : FS :=
  ⟨(p, sz) :: fs.files.filter (fun q => q.1 != p), fs.dirs⟩

/-- `if (!fs.existsSync(d)) fs.mkdirSync(d, { recursive: true })`. -/
def FS.mkdir (fs : FS) (d : String) : FS :=
  if d ∈ fs.dirs then fs else ⟨fs.files, d :: fs.dirs⟩

/-- What one `downloadFileToPath` call did (ghost observation). -/
inductive DlAct where
  | hit
  | got (sz : Nat)
  | fail
deriving DecidableEq

/-- `downloadFileToPath` (server.js lines 82-95).  If the destination exists
non-empty it resolves at once without touching the network; otherwise the
write stream is created (so a failed request leaves an empty file) and the
body is fetched; `none` in the first component models a rejected promise. -/
def downloadFileToPath (net : String → Option Nat) (fileUrl outPath : String) (fs : FS) :
    Option String × FS × DlAct :=
  if fs.cachedNonEmpty outPath then (some outPath, fs, .hit)
  else
    match net fileUrl with
    | some sz => (some outPath, fs.write outPath sz, .got sz)
    | none => (none, fs.write outPath 0, .fail)

structure SavedFile where
  type : String
  path : String
  name : String
deriving DecidableEq

/-- Ghost log entry for one asset block of `downloadAssetsForTask`. -/
inductive FetchEv where
  | cached (url ty out name : String)
  | fetched (url ty out name : String) (sz : Nat)
  | failed (url ty out name : String)
  | badUrl (url ty : String)
deriving DecidableEq

def FetchEv.urlOf : FetchEv → String
  | .cached u _ _ _ => u
  | .fetched u _ _ _ _ => u
  | .failed u _ _ _ => u
  | .badUrl u _ => u

/-- `true` exactly when the event touched the network. -/
def FetchEv.isNet : FetchEv → Bool
  | .fetched _ _ _ _ _ => true
  | .failed _ _ _ _ => true
  | _ => false

/-- The saved-file entry an event contributed, if any. -/
def successEntry : FetchEv → Option SavedFile
  | .cached _ ty out name => some ⟨ty, out, name⟩
  | .fetched _ ty out name _ => some ⟨ty, out, name⟩
  | _ => none

/-- One guarded download block of the per-track loop, precomputed: the
(coerced) URL, the entry type, whether `new URL` succeeds, and the
destination path and filename built from the ordinal-and-title base. -/
structure BlockPlan where
  url : String
  ty : String
  valid : Bool
  out : String
  name : String
deriving DecidableEq

/-- Plan for one `if (xxxUrl) { try { ... } }` block: `none` when the URL
value is falsy (block skipped), otherwise the coerced URL together with the
filename `base ++ sfx ++ ext` where `ext` is the URL-path extension or the
default (server.js lines 113-149). -/
def blockPlan (taskDir base : String) (urlVal : JsVal) (sfx defExt ty : String) :
    Option BlockPlan :=
  if urlVal.truthy then
    let us := jsToString urlVal
    match urlPathname us with
    | some pn =>
      let e0 := extnameOf pn
      let ext := if e0 = "" then defExt else e0
      let nm := base ++ sfx ++ ext
      some ⟨us, ty, true, taskDir ++ "/" ++ nm, nm⟩
    | none => some ⟨us, ty, false, "", ""⟩
  else none

/-- The up-to-three blocks of iteration `i` of the loop body (audio, source
audio, and cover-else-source-cover), in program order (server.js 103-149). -/
def itemPlanOpts (taskDir : String) (i : Nat) (x : JsVal) : List (Option BlockPlan) :=
  let it := jsOr x (.obj [])
  let audioUrl :=
    jsOr (it.get "audioUrl")
      (jsOr (it.get "audio_url") (jsOr (it.get "streamAudioUrl") (it.get "stream_audio_url")))
  let sourceAudioUrl := jsOr (it.get "sourceAudioUrl") (it.get "source_audio_url")
  let imageUrl := jsOr (it.get "imageUrl") (it.get "image_url")
  let sourceImageUrl := jsOr (it.get "sourceImageUrl") (it.get "source_image_url")
  let safeTitle := sanitizeTitle (jsToString (jsOr (it.get "title") (.str ("track_" ++ toString (i + 1)))))
  let base := toString (i + 1) ++ "_" ++ safeTitle
  [blockPlan taskDir base audioUrl "" ".mp3" "audio",
   blockPlan taskDir base sourceAudioUrl "_source" ".mp3" "audio_source",
   if imageUrl.truthy then blockPlan taskDir base imageUrl "_cover" ".png" "cover"
   else blockPlan taskDir base sourceImageUrl "_cover_source" ".png" "cover_source"]

def planOptsFrom (taskDir : String) : Nat → List JsVal → List (Option BlockPlan)
  | _, [] => []
  | i, x :: rest => itemPlanOpts taskDir i x ++ planOptsFrom taskDir (i + 1) rest

/-- Running state of one `downloadAssetsForTask` call: the file system, the
ghost event log, and the `saved` accumulator. -/
structure DLSt where
  fs : FS
  log : List FetchEv
  saved : List SavedFile

/-- Execute one block: skipped when the URL is falsy; an invalid URL throws
inside the block's `try` (caught, nothing saved); otherwise
`downloadFileToPath` runs and a successful resolution pushes the entry while
a rejection is swallowed. -/
def runBlock (net : String → Option Nat) (p? : Option BlockPlan) (st : DLSt) : DLSt :=
  match p? with
  | none => st
  | some p =>
    if p.valid then
      match downloadFileToPath net p.url p.out st.fs with
      | (some _, fs2, .hit) =>
        ⟨fs2, st.log ++ [.cached p.url p.ty p.out p.name], st.saved ++ [⟨p.ty, p.out, p.name⟩]⟩
      | (some _, fs2, .got sz) =>
        ⟨fs2, st.log ++ [.fetched p.url p.ty p.out p.name sz], st.saved ++ [⟨p.ty, p.out, p.name⟩]⟩
      | (_, fs2, _) =>
        ⟨fs2, st.log ++ [.failed p.url p.ty p.out p.name], st.saved⟩
    else ⟨st.fs, st.log ++ [.badUrl p.url p.ty], st.saved⟩

def runPlans (net : String → Option Nat) : List (Option BlockPlan) → DLSt → DLSt
  | [], st => st
  | p :: ps, st => runPlans net ps (runBlock net p st)

/-- The resolved download root (`DOWNLOAD_DIR`, server.js line 19). -/
def DOWNLOAD_DIR : String := "downloads"

def taskDirOf (taskId : String) : String := DOWNLOAD_DIR ++ "/" ++ taskId

/-- `downloadAssetsForTask` (server.js lines 97-153): returns `[]` at once on
a non-array or empty input, otherwise ensures the per-task directory and runs
every block of every track in order. -/
def downloadAssetsForTask (net : String → Option Nat) (taskId : String) (sd : JsVal) (fs : FS) :
    DLSt :=
  match sd with
  | .arr xs =>
    if xs.isEmpty then ⟨fs, [], []⟩
    else
      let taskDir := taskDirOf taskId
      runPlans net (planOptsFrom taskDir 0 xs) ⟨fs.mkdir taskDir, [], []⟩
  | _ => ⟨fs, [], []⟩

/-- All planned blocks of a task, flattened (ghost). -/
def plansOf (taskId : String) (sd : JsVal) : List BlockPlan :=
  match sd with
  | .arr xs => if xs.isEmpty then [] else (planOptsFrom (taskDirOf taskId) 0 xs).filterMap id
  | _ => []

/-! ## Task Registry and Poll Scheduler (server.js lines 30-41, 155-223) -/

/-- One `taskCache` record (server.js lines 30-39; the `sunoData` field is
absent until the first successful tick writes it, hence `Option`). -/
structure TaskRec where
  lastRaw : Option JsVal
  status : Option String
  updatedAt : Nat
  downloaded : Bool
  localFiles : List SavedFile
  sunoData : Option JsVal

/-- The record shape `{}` yields when fields are read (`taskCache.get(id) || {}`). -/
def emptyRec : TaskRec := ⟨none, none, 0, false, [], none⟩

/-- The record installed by `startServerSidePoll` for an unseen task
(server.js line 163): `{ lastRaw: null, status: null, updatedAt: Date.now(),
downloaded: false, localFiles: [] }`. -/
def initRec (t : Nat) : TaskRec := ⟨none, none, t, false, [], none⟩

/-- One `setInterval` timer created by `startServerSidePoll`, with the
closure-local `attempts` counter shared by all its callback invocations. -/
structure TimerRec where
  tid : Nat
  attempts : Nat
  active : Bool
deriving DecidableEq

def maxAttempts : Nat := 120

def intervalMs : Nat := 5000

/-- State of the engine for one fixed task id: the timers ever created for
it, the `activePolls` entry (`handle`), the `taskCache` record, the callback
invocations currently awaiting their upstream fetch (by owning timer id), the
`downloadAssetsForTask` calls currently in flight (by their `sunoData`
argument), the file system, and ghost counters for Materializer invocations
and for `downloaded = true` assignments, plus a ghost clock. -/
structure PollSt where
  timers : List TimerRec
  nextTid : Nat
  handle : Bool
  cacheRec : Option TaskRec
  inflight : List Nat
  pendingDl : List JsVal
  fs : FS
  dlCount : Nat
  dlMarkCount : Nat
  now : Nat

/-- Events: a `startServerSidePoll(taskId)` call; a timer callback firing
(only an uncleared timer can fire); an in-flight fetch resolving with a
payload or rejecting; an in-flight `downloadAssetsForTask` completing. -/
inductive PollEv where
  | startPoll
  | fire (tid : Nat)
  | fetchOk (k : Nat) (resp : JsVal)
  | fetchErr (k : Nat)
  | dlDone (k : Nat)

def bumpAttempts (ts : List TimerRec) (tid : Nat) : List TimerRec :=
  ts.map (fun t => if t.tid == tid then { t with attempts := t.attempts + 1 } else t)

/-- `clearInterval(timer)`: idempotent deactivation. -/
def clearTimer (ts : List TimerRec) (tid : Nat) : List TimerRec :=
  ts.map (fun t => if t.tid == tid then { t with active := false } else t)

def attemptsOfTid (ts : List TimerRec) (tid : Nat) : Nat :=
  ((ts.find? (fun t => t.tid == tid)).map (fun t => t.attempts)).getD 0

def findActive (ts : List TimerRec) : Option TimerRec :=
  ts.find? (fun t => t.active)

/-- The cache update every successful tick performs before inspecting the
status (server.js lines 177-183). -/
def updateRecOnTick (r : TaskRec) (resp : JsVal) (t : Nat) : TaskRec :=
  { r with lastRaw := some resp, status := some (registryStatus resp),
           sunoData := some (extractSunoData resp), updatedAt := t }

/-- Small-step semantics of `startServerSidePoll` and its timer callback
(server.js lines 156-223).  `none` means the event is not enabled.
`startPoll` is the function body up to `activePolls.set`; `fire` is the
synchronous head of the callback (`attempts++`) followed by suspension on the
`kieRecordInfo` await; `fetchOk`/`fetchErr` resume a suspended callback;
`dlDone` resumes the suspension on the `downloadAssetsForTask` await and
performs the `downloaded`/`localFiles` cache update. -/
def pollStep (net : String → Option Nat) (taskId : String) (s : PollSt) :
    PollEv → Option PollSt
  | .startPoll =>
    if s.handle then some s
    else
      some { s with
        cacheRec := some (s.cacheRec.getD (initRec s.now)),
        timers := s.timers ++ [⟨s.nextTid, 0, true⟩],
        nextTid := s.nextTid + 1,
        handle := true,
        now := s.now + 1 }
  | .fire tid =>
    match s.timers.find? (fun t => t.tid == tid) with
    | some t =>
      if t.active then
        some { s with timers := bumpAttempts s.timers tid,
                      inflight := s.inflight ++ [tid], now := s.now + 1 }
      else none
    | none => none
  | .fetchOk k resp =>
    match s.inflight.get? k with
    | some tid =>
      let status := registryStatus resp
      let sd := extractSunoData resp
      let rec1 := updateRecOnTick (s.cacheRec.getD emptyRec) resp s.now
      let s1 := { s with inflight := s.inflight.eraseIdx k, cacheRec := some rec1, now := s.now + 1 }
      if status ∈ FINAL_STATUSES then
        some { s1 with timers := clearTimer s.timers tid, handle := false,
                       dlCount := s.dlCount + 1, pendingDl := s.pendingDl ++ [sd] }
      else if status ∈ ERROR_STATUSES ∨ maxAttempts ≤ attemptsOfTid s.timers tid then
        some { s1 with timers := clearTimer s.timers tid, handle := false }
      else some s1
    | none => none
  | .fetchErr k =>
    match s.inflight.get? k with
    | some tid =>
      let s1 := { s with inflight := s.inflight.eraseIdx k, now := s.now + 1 }
      if maxAttempts ≤ attemptsOfTid s.timers tid then
        some { s1 with timers := clearTimer s.timers tid, handle := false }
      else some s1
    | none => none
  | .dlDone k =>
    match s.pendingDl.get? k with
    | some sd =>
      let r := downloadAssetsForTask net taskId sd s.fs
      let rec1 := s.cacheRec.getD emptyRec
      let rec2 := { rec1 with downloaded := true, localFiles := r.saved, updatedAt := s.now }
      some { s with pendingDl := s.pendingDl.eraseIdx k, fs := r.fs,
                    cacheRec := some rec2,
                    dlMarkCount := s.dlMarkCount + 1,
                    now := s.now + 1 }
    | none => none

def runTrace (net : String → Option Nat) (taskId : String) :
    PollSt → List PollEv → Option PollSt
  | s, [] => some s
  | s, e :: es =>
    match pollStep net taskId s e with
    | some s2 => runTrace net taskId s2 es
    | none => none

def initialState (fs0 : FS) : PollSt := ⟨[], 0, false, none, [], [], fs0, 0, 0, 0⟩

/-- The serialized schedule: each interval callback runs to completion
(fetch, processing and — on terminal success — the download) before the next
one fires; a cleared timer never fires again.  One list element is one tick's
fetch outcome (`none` = the fetch rejected). -/
def runTick (net : String → Option Nat) (taskId : String) (s : PollSt) (r : Option JsVal) :
    PollSt :=
  match findActive s.timers with
  | none => s
  | some t =>
    let s1 := (pollStep net taskId s (.fire t.tid)).getD s
    let s2 :=
      match r with
      | some v => (pollStep net taskId s1 (.fetchOk 0 v)).getD s1
      | none => (pollStep net taskId s1 (.fetchErr 0)).getD s1
    match s2.pendingDl with
    | [] => s2
    | _ => (pollStep net taskId s2 (.dlDone 0)).getD s2

def runSeq (net : String → Option Nat) (taskId : String) :
    PollSt → List (Option JsVal) → PollSt
  | s, [] => s
  | s, r :: rs => runSeq net taskId (runTick net taskId s r) rs

def startState (net : String → Option Nat) (taskId : String) (fs0 : FS) : PollSt :=
  (pollStep net taskId (initialState fs0) .startPoll).getD (initialState fs0)

/-- The canonical shape of the state of a single serialized poller that has
completed `k` ticks without stopping. -/
def runningShape (fs0 : FS) (k : Nat) (r : TaskRec) (t : Nat) : PollSt :=
  ⟨[⟨0, k, true⟩], 1, true, some r, [], [], fs0, 0, 0, t⟩

/-- A tick outcome that keeps a serialized poller running (the budget aside):
a rejected fetch, or a status that is neither terminal-success nor
terminal-error. -/
def ContinueResp : Option JsVal → Prop
  | none => True
  | some v => registryStatus v ∉ FINAL_STATUSES ∧ registryStatus v ∉ ERROR_STATUSES

/-! ## Client-facing read paths (server.js lines 307-377) -/

/-- The `data` object `/api/task/:taskId` serves from a cached record
(server.js lines 313-324): `sunoData`, `downloaded` and `localFiles` fall
back through `|| []` / `|| false`. -/
structure TaskStateResp where
  status : Option String
  sunoData : JsVal
  downloaded : Bool
  localFiles : List SavedFile

def taskQueryCached (r : TaskRec) : TaskStateResp :=
  ⟨r.status, jsOr (r.sunoData.getD .undefined) (.arr []), r.downloaded, r.localFiles⟩

/-- Outcome of the `/download` handler. -/
inductive DlResult where
  | localFile (path name : String)
  | remote (url filename : String)
  | badRequest
  | urlThrow
  | fetchError
deriving DecidableEq

/-- Truthiness of an Express query parameter (absent or empty is falsy). -/
def truthyParam : Option String → Bool
  | some s => s != ""
  | none => false

/-- The `/download` handler (server.js lines 342-377).  `cache` is
`taskCache.get`, `fileExists` is `fs.existsSync`, `netOk u` tells whether
streaming `u` succeeds.  `urlThrow` models the uncaught `new URL` throw in
the local-match branch; the remote branch's failures (request rejection, or
`new URL` throwing inside its `try`) surface as the 500 response
(`fetchError`). -/
def downloadHandler (cache : String → Option TaskRec) (fileExists : String → Bool)
    (netOk : String → Bool) (urlQ tidQ : Option String) : DlResult :=
  let stage1 : Option DlResult :=
    if truthyParam tidQ then
      match cache (tidQ.getD "") with
      | none => none
      | some entry =>
        if 0 < entry.localFiles.length then
          let matchRes : Option DlResult :=
            if truthyParam urlQ then
              match urlPathname (urlQ.getD "") with
              | none => some .urlThrow
              | some pn =>
                let bn := pathBasename pn
                match entry.localFiles.find?
                    (fun f => strHasSub bn.toList f.name.toList || f.name == bn) with
                | some found =>
                  if fileExists found.path then some (.localFile found.path found.name) else none
                | none => none
            else none
          match matchRes with
          | some r => some r
          | none =>
            match (entry.localFiles.find? (fun f => f.type == "audio")).orElse
                (fun _ => entry.localFiles.head?) with
            | some al => if fileExists al.path then some (.localFile al.path al.name) else none
            | none => none
        else none
    else none
  match stage1 with
  | some r => r
  | none =>
    if ¬ truthyParam urlQ then .badRequest
    else if netOk (urlQ.getD "") then
      match urlPathname (urlQ.getD "") with
      | some pn =>
        let bn := pathBasename pn
        .remote (urlQ.getD "") (if bn = "" then "file.bin" else bn)
      | none => .fetchError
    else .fetchError

/-! ## Claim-side specification functions and concrete scenario constants -/

/-- The status fields C6 says are probed, in order: the top-level `status`
field, then the nested `response.status` field (both read off the unwrapped
`data` payload). -/
def statusProbesC6 (v : JsVal) : List JsVal :=
  let data := jsOr (v.get "data") v
  [data.get "status", (data.get "response").get "status"]

/-- Renders a found probe: upper-cases it when it is a string, and yields
`UNKNOWN` for a non-string probe or when no probe was found. -/
def upperOrUnknown : Option JsVal → String
  | some (.str s) => asciiUpper s
  | _ => "UNKNOWN"

/-- Whether a probe value is a non-empty string. -/
def isNonEmptyStr : JsVal → Bool
  | .str s => s != ""
  | _ => false

/-- C6 as literally claimed: the first probe that is a non-empty string is
upper-cased and returned; otherwise `UNKNOWN`. -/
def claimStatusSpecC6 (v : JsVal) : String :=
  upperOrUnknown ((statusProbesC6 v).find? isNonEmptyStr)

/-- C6 as amended: the first *truthy* probe wins; it is upper-cased when it
is a string, and anything else (or no truthy probe) yields `UNKNOWN`. -/
def amendedStatusSpecC6 (v : JsVal) : String :=
  upperOrUnknown ((statusProbesC6 v).find? JsVal.truthy)

/-- The nesting paths `extractSunoData` probes, in program order: the four
`||`-chained paths, then the fallback `kieResp.data.data.sunoData` (the other
fallback path `kieResp.data.response.sunoData` coincides with the first chain
entry whenever it is reachable). -/
def sunoProbesC2 (v : JsVal) : List JsVal :=
  let data := jsOr (v.get "data") v
  [(data.get "response").get "sunoData",
   data.get "sunoData",
   data.get "response",
   ((data.get "data").get "response").get "sunoData",
   ((v.get "data").get "data").get "sunoData"]

/-- The `/download` resolution order as amended for C9: a name-matched
materialized file on disk; else the first local audio file — or, when no
local file has kind audio, the first local file of any kind — on disk; else
the remote stream; else a bad request. -/
def resolveSpecC9 (cache : String → Option TaskRec) (fileExists netOk : String → Bool)
    (urlQ tidQ : Option String) : DlResult :=
  let files : List SavedFile :=
    if truthyParam tidQ then
      match cache (tidQ.getD "") with
      | some entry => entry.localFiles
      | none => []
    else []
  let nameServe : Option DlResult :=
    if truthyParam urlQ && !files.isEmpty then
      match urlPathname (urlQ.getD "") with
      | some pn =>
        let bn := pathBasename pn
        match files.find? (fun f => strHasSub bn.toList f.name.toList || f.name == bn) with
        | some f => if fileExists f.path then some (.localFile f.path f.name) else none
        | none => none
      | none => none
    else none
  let audioServe : Option DlResult :=
    if !files.isEmpty then
      match (files.find? (fun f => f.type == "audio")).orElse (fun _ => files.head?) with
      | some f => if fileExists f.path then some (.localFile f.path f.name) else none
      | none => none
    else none
  match nameServe with
  | some r => r
  | none =>
    match audioServe with
    | some r => r
    | none =>
      if truthyParam urlQ then
        if netOk (urlQ.getD "") then
          match urlPathname (urlQ.getD "") with
          | some pn =>
            let bn := pathBasename pn
            .remote (urlQ.getD "") (if bn = "" then "file.bin" else bn)
          | none => .fetchError
        else .fetchError
      else .badRequest

/-- C6 counterexample payload: the top-level `status` is the (truthy,
non-string) number `5`, while `response.status` is the non-empty string
`"pending"`. -/
def exC6 : JsVal := .obj [("status", .num 5), ("response", .obj [("status", .str "pending")])]

/-- C2 counterexample payload: every probed path is falsy or non-array except
`data.response.sunoData`, which holds the truthy non-array `"x"`. -/
def exC2 : JsVal := .obj [("data", .obj [("response", .obj [("sunoData", .str "x")])])]

/-- A terminal-success upstream payload carrying no track list. -/
def respSuccess : JsVal := .obj [("data", .obj [("status", .str "SUCCESS")])]

/-- A terminal-error upstream payload. -/
def respSensitive : JsVal := .obj [("data", .obj [("status", .str "SENSITIVE_WORD_ERROR")])]

/-- A non-terminal upstream payload. -/
def respPending : JsVal := .obj [("data", .obj [("status", .str "PENDING")])]

/-- A network on which every request fails. -/
def net0 : String → Option Nat := fun _ => none

/-- A network on which every request succeeds with a 7-byte body. -/
def netPos : String → Option Nat := fun _ => some 7

/-- A network on which exactly `http://h/a1.mp3` is unreachable. -/
def netW : String → Option Nat := fun u => if u = "http://h/a1.mp3" then none else some 7

def fsEmpty : FS := ⟨[], []⟩

/-- Two tracks with one audio URL each; the first one is unreachable on `netW`. -/
def sdTwo : JsVal :=
  .arr [.obj [("audioUrl", .str "http://h/a1.mp3"), ("title", .str "One")],
        .obj [("audioUrl", .str "http://h/a2.mp3"), ("title", .str "Two")]]

/-- The C1 counterexample schedule: a poller observes `SUCCESS`, releases the
handle and starts its download; while that download is in flight a second
`startServerSidePoll` call is accepted, and its tick observes `SUCCESS`
again, invoking the Materializer a second time; both downloads then complete,
assigning `downloaded` twice. -/
def c1Trace : List PollEv :=
  [.startPoll, .fire 0, .fetchOk 0 respSuccess, .startPoll, .fire 1, .fetchOk 0 respSuccess,
   .dlDone 0, .dlDone 0]

/-- A registry entry whose only materialized file is a cover image. -/
def coverOnlyRec : TaskRec :=
  ⟨none, some "SUCCESS", 0, true, [⟨"cover", "downloads/t/1_x_cover.png", "1_x_cover.png"⟩], none⟩

def cacheC9 : String → Option TaskRec := fun tid => if tid = "t" then some coverOnlyRec else none

/-- A realistic success payload: `data.response.sunoData` is the track array. -/
def exC2good : JsVal :=
  .obj [("data", .obj [("response", .obj [("sunoData", .arr [.num 1])])])]

/-- A state with one completed Materializer call awaiting its `await`
resumption (an empty track list is in flight). -/
def pendState : PollSt := ⟨[], 0, false, none, [], [JsVal.arr []], fsEmpty, 1, 0, 0⟩

/-- The record shape after a completed materialization: `downloaded` set,
`localFiles` recorded, timestamp refreshed. -/
def finishedRec (r : TaskRec) (saved : List SavedFile) (t : Nat) : TaskRec :=
  { r with downloaded := true, localFiles := saved, updatedAt := t }

/-- The number of uncleared timers of the task (ghost measure for the
at-most-one-active-poller property). -/
def countActive (ts : List TimerRec) : Nat := (ts.filter (fun t => t.active)).length

/-- A running poller whose first tick is awaiting its upstream fetch. -/
def pendFetchState : PollSt := ⟨[⟨0, 1, true⟩], 1, true, some (initRec 0), [0], [], fsEmpty, 0, 0, 2⟩

/-- A running poller whose 120th tick is awaiting its upstream fetch. -/
def budgetState : PollSt := ⟨[⟨0, 120, true⟩], 1, true, some (initRec 0), [0], [], fsEmpty, 0, 0, 5⟩

/-! ## Basic lemmas about the JS-value embedding -/

theorem jsOr_pos {a : JsVal} (b : JsVal) (h : a.truthy = true) : jsOr a b = a := by
  simp [jsOr, h]

theorem jsOr_neg {a : JsVal} (b : JsVal) (h : a.truthy = false) : jsOr a b = b := by
  simp [jsOr, h]

theorem jsAnd_pos {a : JsVal} (b : JsVal) (h : a.truthy = true) : jsAnd a b = b := by
  simp [jsAnd, h]

theorem jsAnd_neg {a : JsVal} (b : JsVal) (h : a.truthy = false) : jsAnd a b = a := by
  simp [jsAnd, h]

theorem truthy_of_isArr {p : JsVal} (h : p.isArr = true) : p.truthy = true := by
  cases p <;> simp_all [JsVal.isArr, JsVal.truthy]

theorem isArr_false_of_falsy {p : JsVal} (h : p.truthy = false) : p.isArr = false := by
  cases p <;> simp_all [JsVal.isArr, JsVal.truthy]

theorem get_of_falsy {x : JsVal} (f : String) (h : x.truthy = false) :
    x.get f = .undefined := by
  cases x <;> simp_all [JsVal.get, JsVal.truthy]

theorem asciiUpper_empty : asciiUpper "" = "" := rfl

theorem asciiUpper_eq_empty_iff (s : String) : asciiUpper s = "" ↔ s = "" := by
  cases s with
  | mk l =>
    constructor
    · intro h
      have := congrArg String.data h
      simp [asciiUpper] at this
      simp [this]
    · intro h
      have := congrArg String.data h
      simp at this
      simp [this, asciiUpper]

theorem orUnknown_truthy {p : JsVal} (h : p.truthy = true) :
    orUnknown (statusStrOpt p) = upperOrUnknown (some p) := by
  cases p <;> simp_all [JsVal.truthy, orUnknown, statusStrOpt, upperOrUnknown,
    asciiUpper_eq_empty_iff, bne_iff_ne]

theorem orUnknown_falsy {p : JsVal} (h : p.truthy = false) :
    orUnknown (statusStrOpt p) = "UNKNOWN" := by
  cases p <;> simp_all [JsVal.truthy, orUnknown, statusStrOpt, bne_iff_ne, asciiUpper_empty]

/-! ## C6 — status normalization -/

/-- C6 counterexample: on a payload whose top-level `status` is the truthy
non-string `5` while `response.status` is the non-empty string `"pending"`,
the registry-level status is `UNKNOWN`, although the first non-empty string
among the probes (which C6 claims is returned upper-cased) is `"pending"`,
i.e. the claimed result would be `"PENDING"`. -/
theorem c6_counterexample :
    registryStatus exC6 = "UNKNOWN" ∧ claimStatusSpecC6 exC6 = "PENDING" := by
  constructor
  · rfl
  · decide

/-- C6 (amended): status normalization probes, in order, the top-level
`status` field then the nested `response.status` field of the unwrapped
payload, and the registry records the upper-cased value of the first *truthy*
probe when that value is a string; when no probe is truthy, or the first
truthy probe is not a string, the registry records `UNKNOWN`.  The function
is total, so no payload makes it raise. -/
theorem c6_registry_status_amended (v : JsVal) : registryStatus v = amendedStatusSpecC6 v := by
  simp only [registryStatus, getStatusFromKieResp, amendedStatusSpecC6, statusProbesC6]
  cases hd : (JsVal.get v "data").truthy
  · rw [jsOr_neg _ hd]
    cases ha : (JsVal.get v "status").truthy
    · rw [jsOr_neg _ ha, List.find?_cons_of_neg _ (by simp [ha])]
      cases hb : ((JsVal.get v "response").get "status").truthy
      · rw [jsOr_neg _ hb, List.find?_cons_of_neg _ (by simp [hb]), jsAnd_neg _ hd]
        rw [orUnknown_falsy hd]
        rfl
      · rw [jsOr_pos _ hb, List.find?_cons_of_pos _ (by simp [hb]), orUnknown_truthy hb]
    · rw [jsOr_pos _ ha, List.find?_cons_of_pos _ (by simp [ha]), orUnknown_truthy ha]
  · rw [jsOr_pos _ hd]
    cases ha : ((JsVal.get v "data").get "status").truthy
    · rw [jsOr_neg _ ha, List.find?_cons_of_neg _ (by simp [ha])]
      cases hb : (((JsVal.get v "data").get "response").get "status").truthy
      · rw [jsOr_neg _ hb, List.find?_cons_of_neg _ (by simp [hb]), jsAnd_pos _ hd]
        rw [orUnknown_falsy ha]
        rfl
      · rw [jsOr_pos _ hb, List.find?_cons_of_pos _ (by simp [hb]), orUnknown_truthy hb]
    · rw [jsOr_pos _ ha, List.find?_cons_of_pos _ (by simp [ha]), orUnknown_truthy ha]

/-! ## C2 — asset extraction -/

/-- C2 counterexample: on a payload with `data.response.sunoData = "x"` (a
truthy non-array), `extractSunoData` returns the string `"x"` — not an
ordered sequence at all, contradicting "always returns an ordered sequence:
the first structurally valid array found among the probed nesting paths, or
the empty sequence if none is found". -/
theorem c2_counterexample :
    extractSunoData exC2 = JsVal.str "x" ∧ (extractSunoData exC2).isArr = false := by
  constructor
  · rfl
  · rfl

/-- C2 (amended): extraction never raises (the function is total), and it
returns the first structurally valid array among the probed nesting paths
provided every probe *preceding* that array is falsy; when every probed value
is falsy the empty sequence is returned.  A truthy non-array probe ahead of a
valid array breaks the literal claim, as the counterexample shows. -/
theorem c2_first_array_amended (v : JsVal) :
    (∀ i, (∀ j, j < i → ((sunoProbesC2 v).getD j .undefined).truthy = false) →
        ((sunoProbesC2 v).getD i .undefined).isArr = true →
        extractSunoData v = (sunoProbesC2 v).getD i .undefined)
    ∧ ((∀ p ∈ sunoProbesC2 v, p.truthy = false) → extractSunoData v = .arr []) := by
  constructor
  · intro i h1 h2
    simp only [extractSunoData]
    match i with
    | 0 =>
      have h2a : (((jsOr (JsVal.get v "data") v).get "response").get "sunoData").isArr = true := h2
      rw [jsOr_pos _ (truthy_of_isArr h2a), if_pos (by simp [h2a])]
      rfl
    | 1 =>
      have f1 : (((jsOr (JsVal.get v "data") v).get "response").get "sunoData").truthy = false :=
        h1 0 (by omega)
      have h2a : ((jsOr (JsVal.get v "data") v).get "sunoData").isArr = true := h2
      rw [jsOr_neg _ f1, jsOr_pos _ (truthy_of_isArr h2a), if_pos (by simp [h2a])]
      rfl
    | 2 =>
      have f1 : (((jsOr (JsVal.get v "data") v).get "response").get "sunoData").truthy = false :=
        h1 0 (by omega)
      have f2 : ((jsOr (JsVal.get v "data") v).get "sunoData").truthy = false := h1 1 (by omega)
      have h2a : ((jsOr (JsVal.get v "data") v).get "response").isArr = true := h2
      rw [jsOr_neg _ f1, jsOr_neg _ f2, jsOr_pos _ (truthy_of_isArr h2a), if_pos (by simp [h2a])]
      rfl
    | 3 =>
      have f1 : (((jsOr (JsVal.get v "data") v).get "response").get "sunoData").truthy = false :=
        h1 0 (by omega)
      have f2 : ((jsOr (JsVal.get v "data") v).get "sunoData").truthy = false := h1 1 (by omega)
      have f3 : ((jsOr (JsVal.get v "data") v).get "response").truthy = false := h1 2 (by omega)
      have h2a : ((((jsOr (JsVal.get v "data") v).get "data").get "response").get "sunoData").isArr
          = true := h2
      rw [jsOr_neg _ f1, jsOr_neg _ f2, jsOr_neg _ f3, if_pos (by simp [h2a])]
      rfl
    | 4 =>
      have f1 : (((jsOr (JsVal.get v "data") v).get "response").get "sunoData").truthy = false :=
        h1 0 (by omega)
      have f2 : ((jsOr (JsVal.get v "data") v).get "sunoData").truthy = false := h1 1 (by omega)
      have f3 : ((jsOr (JsVal.get v "data") v).get "response").truthy = false := h1 2 (by omega)
      have f4 : ((((jsOr (JsVal.get v "data") v).get "data").get "response").get "sunoData").truthy
          = false := h1 3 (by omega)
      have h2a : (((JsVal.get v "data").get "data").get "sunoData").isArr = true := h2
      rw [jsOr_neg _ f1, jsOr_neg _ f2, jsOr_neg _ f3,
        if_neg (by simp [isArr_false_of_falsy f4])]
      cases hdd : ((JsVal.get v "data").get "data").truthy
      case false =>
        rw [get_of_falsy _ hdd] at h2a
        simp [JsVal.isArr] at h2a
      case true =>
        rw [jsOr_pos _ hdd, if_pos (by simp [truthy_of_isArr h2a])]
        rfl
    | n + 5 =>
      have h2a : (JsVal.undefined).isArr = true := h2
      simp [JsVal.isArr] at h2a
  · intro h
    simp only [sunoProbesC2] at h
    simp only [List.mem_cons, List.not_mem_nil, or_false, forall_eq_or_imp, forall_eq] at h
    obtain ⟨f1, f2, f3, f4, f5⟩ := h
    simp only [extractSunoData]
    rw [jsOr_neg _ f1, jsOr_neg _ f2, jsOr_neg _ f3,
      if_neg (by simp [isArr_false_of_falsy f4])]
    cases hdd : ((JsVal.get v "data").get "data").truthy
    case true =>
      rw [jsOr_pos _ hdd, if_neg (by simp [f5])]
    case false =>
      rw [jsOr_neg _ hdd]
      cases hd : (JsVal.get v "data").truthy
      case true =>
        rw [jsOr_pos _ hd] at f1
        rw [if_neg (by simp [f1])]
      case false =>
        rw [get_of_falsy _ hd, if_neg (by simp [JsVal.get, JsVal.truthy])]

/-- C2 witness: on a realistic payload whose first probed path holds the
track array, the amended theorem applies with its hypotheses discharged and
yields exactly that array. -/
theorem c2_first_array_amended_witness :
    extractSunoData exC2good = JsVal.arr [JsVal.num 1] := by
  have := (c2_first_array_amended exC2good).1 0
    (fun j hj => absurd hj (Nat.not_lt_zero j)) (by rfl)
  exact this.trans (by rfl)
/-! ## Materializer lemmas -/

theorem size?_write_self (fs : FS) (p : String) (sz : Nat) :
    (fs.write p sz).size? p = some sz := by
  simp [FS.write, FS.size?, List.find?]

theorem find?_filter_ne (l : List (String × Nat)) (p q : String) (h : q ≠ p) :
    (l.filter (fun r => r.1 != p)).find? (fun r => r.1 == q)
      = l.find? (fun r => r.1 == q) := by
  induction l with
  | nil => rfl
  | cons a l ih =>
    by_cases hap : a.1 = p
    · rw [List.filter_cons_of_neg (by simp [hap]), ih,
        List.find?_cons_of_neg _ (by simp [beq_iff_eq, hap]; exact Ne.symm h)]
    · rw [List.filter_cons_of_pos (by simp [hap])]
      by_cases haq : a.1 = q
      · rw [List.find?_cons_of_pos _ (by simp [beq_iff_eq, haq]),
          List.find?_cons_of_pos _ (by simp [beq_iff_eq, haq])]
      · rw [List.find?_cons_of_neg _ (by simp [beq_iff_eq, haq]),
          List.find?_cons_of_neg _ (by simp [beq_iff_eq, haq]), ih]

theorem size?_write_other (fs : FS) (p q : String) (sz : Nat) (h : q ≠ p) :
    (fs.write p sz).size? q = fs.size? q := by
  unfold FS.write FS.size?
  rw [List.find?_cons_of_neg _ (by simp [beq_iff_eq]; exact Ne.symm h)]
  rw [find?_filter_ne _ _ _ h]

theorem write_dirs (fs : FS) (p : String) (sz : Nat) : (fs.write p sz).dirs = fs.dirs := rfl

theorem dl_preserves_cached (net : String → Option Nat) (u out : String) (fs : FS) (q : String)
    (h : fs.cachedNonEmpty q = true) :
    ((downloadFileToPath net u out fs).2.1).cachedNonEmpty q = true := by
  unfold downloadFileToPath
  by_cases hco : fs.cachedNonEmpty out = true
  · rw [if_pos hco]
    exact h
  · rw [if_neg hco]
    have hq : q ≠ out := fun he => hco (he ▸ h)
    cases hn : net u
    · show ((fs.write out 0)).cachedNonEmpty q = true
      unfold FS.cachedNonEmpty at h ⊢
      rw [size?_write_other _ _ _ _ hq]
      exact h
    · show ((fs.write out _)).cachedNonEmpty q = true
      unfold FS.cachedNonEmpty at h ⊢
      rw [size?_write_other _ _ _ _ hq]
      exact h

theorem runBlock_preserves_cached (net : String → Option Nat) (p? : Option BlockPlan) (st : DLSt)
    (q : String) (h : st.fs.cachedNonEmpty q = true) :
    ((runBlock net p? st).fs).cachedNonEmpty q = true := by
  match p? with
  | none => exact h
  | some p =>
    unfold runBlock
    by_cases hv : p.valid
    · have := dl_preserves_cached net p.url p.out st.fs q h
      rcases hdl : downloadFileToPath net p.url p.out st.fs with ⟨o, fs2, act⟩
      rw [hdl] at this
      match o, act with
      | some x, .hit => simpa [hv, hdl] using this
      | some x, .got sz => simpa [hv, hdl] using this
      | some x, .fail => simpa [hv, hdl] using this
      | none, a => simpa [hv, hdl] using this
    · simpa [hv] using h

theorem runPlans_preserves_cached (net : String → Option Nat) (ps : List (Option BlockPlan))
    (st : DLSt) (q : String) (h : st.fs.cachedNonEmpty q = true) :
    ((runPlans net ps st).fs).cachedNonEmpty q = true := by
  induction ps generalizing st with
  | nil => exact h
  | cons p rest ih => exact ih _ (runBlock_preserves_cached net p st q h)

theorem runBlock_dirs (net : String → Option Nat) (p? : Option BlockPlan) (st : DLSt) :
    (runBlock net p? st).fs.dirs = st.fs.dirs := by
  match p? with
  | none => rfl
  | some p =>
    unfold runBlock downloadFileToPath
    by_cases hv : p.valid
    · by_cases hco : st.fs.cachedNonEmpty p.out = true
      · simp [hv, hco]
      · cases hn : net p.url <;> simp [hv, hco, hn, FS.write]
    · simp [hv]

theorem runPlans_dirs (net : String → Option Nat) (ps : List (Option BlockPlan)) (st : DLSt) :
    (runPlans net ps st).fs.dirs = st.fs.dirs := by
  induction ps generalizing st with
  | nil => rfl
  | cons p rest ih => rw [runPlans, ih, runBlock_dirs]

theorem runBlock_log_urls (net : String → Option Nat) (p? : Option BlockPlan) (st : DLSt) :
    (runBlock net p? st).log.map FetchEv.urlOf
      = st.log.map FetchEv.urlOf ++ (p?.toList.map BlockPlan.url) := by
  match p? with
  | none => simp [runBlock]
  | some p =>
    unfold runBlock downloadFileToPath
    by_cases hv : p.valid
    · by_cases hco : st.fs.cachedNonEmpty p.out = true
      · simp [hv, hco, FetchEv.urlOf]
      · cases hn : net p.url <;> simp [hv, hco, hn, FetchEv.urlOf]
    · simp [hv, FetchEv.urlOf]

theorem runPlans_log_urls (net : String → Option Nat) (ps : List (Option BlockPlan)) (st : DLSt) :
    (runPlans net ps st).log.map FetchEv.urlOf
      = st.log.map FetchEv.urlOf ++ (ps.filterMap id).map BlockPlan.url := by
  induction ps generalizing st with
  | nil => simp [runPlans]
  | cons p rest ih =>
    rw [runPlans, ih, runBlock_log_urls]
    cases p <;> simp

theorem runBlock_saved_rel (net : String → Option Nat) (p? : Option BlockPlan) (st : DLSt)
    (h : st.saved = st.log.filterMap successEntry) :
    (runBlock net p? st).saved = (runBlock net p? st).log.filterMap successEntry := by
  match p? with
  | none => exact h
  | some p =>
    unfold runBlock downloadFileToPath
    by_cases hv : p.valid
    · by_cases hco : st.fs.cachedNonEmpty p.out = true
      · simp [hv, hco, successEntry, h]
      · cases hn : net p.url <;> simp [hv, hco, hn, successEntry, h]
    · simp [hv, successEntry, h]

theorem runPlans_saved_rel (net : String → Option Nat) (ps : List (Option BlockPlan)) (st : DLSt)
    (h : st.saved = st.log.filterMap successEntry) :
    (runPlans net ps st).saved = (runPlans net ps st).log.filterMap successEntry := by
  induction ps generalizing st with
  | nil => exact h
  | cons p rest ih => exact ih _ (runBlock_saved_rel net p st h)

theorem runPlans_saved_all_resolve (net : String → Option Nat) (ps : List (Option BlockPlan))
    (st : DLSt) (hres : ∀ p, some p ∈ ps → p.valid = true → net p.url ≠ none) :
    (runPlans net ps st).saved
      = st.saved ++ (ps.filterMap id).filterMap
          (fun p => if p.valid then some (⟨p.ty, p.out, p.name⟩ : SavedFile) else none) := by
  induction ps generalizing st with
  | nil => simp [runPlans]
  | cons p? rest ih =>
    rw [runPlans]
    have hrest : ∀ p, some p ∈ rest → p.valid = true → net p.url ≠ none :=
      fun p hp => hres p (List.mem_cons_of_mem _ hp)
    rw [ih _ hrest]
    match p? with
    | none => simp [runBlock]
    | some p =>
      by_cases hv : p.valid
      · by_cases hco : st.fs.cachedNonEmpty p.out = true
        · simp [runBlock, downloadFileToPath, hv, hco]
        · have hn := hres p (List.mem_cons_self _ _) hv
          cases hn2 : net p.url with
          | none => exact absurd hn2 hn
          | some sz => simp [runBlock, downloadFileToPath, hv, hco, hn2]
      · have hv2 : p.valid = false := by simpa using hv
        simp [runBlock, hv2]

theorem runBlock_establish (net : String → Option Nat) (p : BlockPlan) (st : DLSt)
    (hnet : ∀ u sz, net u = some sz → sz ≠ 0)
    (hv : p.valid = true) (hn : net p.url ≠ none) :
    ((runBlock net (some p) st).fs).cachedNonEmpty p.out = true := by
  unfold runBlock downloadFileToPath
  by_cases hco : st.fs.cachedNonEmpty p.out = true
  · simp [hv, hco]
  · cases hn2 : net p.url with
    | none => exact absurd hn2 hn
    | some sz =>
      simp [hv, hco, hn2]
      show ((st.fs.write p.out sz)).cachedNonEmpty p.out = true
      unfold FS.cachedNonEmpty
      rw [size?_write_self]
      simpa using hnet _ _ hn2

theorem runPlans_establish (net : String → Option Nat) (ps : List (Option BlockPlan)) (st : DLSt)
    (hnet : ∀ u sz, net u = some sz → sz ≠ 0)
    (hres : ∀ p, some p ∈ ps → p.valid = true → net p.url ≠ none) :
    ∀ p, some p ∈ ps → p.valid = true →
      ((runPlans net ps st).fs).cachedNonEmpty p.out = true := by
  induction ps generalizing st with
  | nil =>
    intro p hp
    simp at hp
  | cons p? rest ih =>
    intro p hp hv
    rw [runPlans]
    rcases List.mem_cons.1 hp with hh | hh
    · subst hh
      have h1 := runBlock_establish net p st hnet hv (hres p (List.mem_cons_self _ _) hv)
      exact runPlans_preserves_cached net rest _ _ h1
    · exact ih _ (fun q hq => hres q (List.mem_cons_of_mem _ hq)) p hh hv

theorem runPlans_all_cached (net : String → Option Nat) (ps : List (Option BlockPlan)) (st : DLSt)
    (hc : ∀ p, some p ∈ ps → p.valid = true → st.fs.cachedNonEmpty p.out = true)
    (hlog : ∀ e ∈ st.log, e.isNet = false) :
    (runPlans net ps st).fs = st.fs ∧ ∀ e ∈ (runPlans net ps st).log, e.isNet = false := by
  induction ps generalizing st with
  | nil => exact ⟨rfl, hlog⟩
  | cons p? rest ih =>
    rw [runPlans]
    match p? with
    | none =>
      exact ih st (fun p hp => hc p (List.mem_cons_of_mem _ hp)) hlog
    | some p =>
      by_cases hv : p.valid
      · have hco := hc p (List.mem_cons_self _ _) hv
        have hblock : runBlock net (some p) st
            = ⟨st.fs, st.log ++ [.cached p.url p.ty p.out p.name],
               st.saved ++ [⟨p.ty, p.out, p.name⟩]⟩ := by
          unfold runBlock downloadFileToPath
          simp [hv, hco]
        rw [hblock]
        refine ih _ (fun q hq hqv => hc q (List.mem_cons_of_mem _ hq) hqv) ?_
        intro e he
        rcases List.mem_append.1 he with he | he
        · exact hlog e he
        · simp at he
          simp [he, FetchEv.isNet]
      · have hv2 : p.valid = false := by simpa using hv
        have hblock : runBlock net (some p) st
            = ⟨st.fs, st.log ++ [.badUrl p.url p.ty], st.saved⟩ := by
          unfold runBlock
          simp [hv2]
        rw [hblock]
        refine ih _ (fun q hq hqv => hc q (List.mem_cons_of_mem _ hq) hqv) ?_
        intro e he
        rcases List.mem_append.1 he with he | he
        · exact hlog e he
        · simp at he
          simp [he, FetchEv.isNet]

theorem mem_mkdir_dirs (fs : FS) (d : String) : d ∈ (fs.mkdir d).dirs := by
  unfold FS.mkdir
  by_cases h : d ∈ fs.dirs
  · rw [if_pos h]
    exact h
  · rw [if_neg h]
    exact List.mem_cons_self _ _

/-- C4: materialization is idempotent.  First conjunct: for every destination
file that already exists with non-zero size, `downloadFileToPath` performs no
download (no network access, file system unchanged) and returns the existing
path.  Remaining conjuncts: when every planned URL is fetchable and every
fetch delivers a non-empty body, running `downloadAssetsForTask` a second
time on the file system produced by the first run returns the same file set,
leaves the file system unchanged, and performs no network fetch (its ghost
log holds no network event). -/
theorem c4_materialization_idempotent (net : String → Option Nat) (taskId : String) (sd : JsVal) (fs : FS)
    (hnet : ∀ u sz, net u = some sz → sz ≠ 0)
    (hres : ∀ p ∈ plansOf taskId sd, p.valid = true → net p.url ≠ none) :
    (∀ (u out : String) (fs1 : FS) (sz : Nat), fs1.size? out = some sz → sz ≠ 0 →
        downloadFileToPath net u out fs1 = (some out, fs1, DlAct.hit))
    ∧ (downloadAssetsForTask net taskId sd ((downloadAssetsForTask net taskId sd fs).fs)).saved
        = (downloadAssetsForTask net taskId sd fs).saved
    ∧ (downloadAssetsForTask net taskId sd ((downloadAssetsForTask net taskId sd fs).fs)).fs
        = (downloadAssetsForTask net taskId sd fs).fs
    ∧ ∀ e ∈ (downloadAssetsForTask net taskId sd
          ((downloadAssetsForTask net taskId sd fs).fs)).log, e.isNet = false := by
  have part1 : ∀ (u out : String) (fs1 : FS) (sz : Nat), fs1.size? out = some sz → sz ≠ 0 →
      downloadFileToPath net u out fs1 = (some out, fs1, DlAct.hit) := by
    intro u out fs1 sz hsz hnz
    unfold downloadFileToPath
    have hc : fs1.cachedNonEmpty out = true := by
      unfold FS.cachedNonEmpty
      rw [hsz]
      simpa using hnz
    rw [if_pos hc]
  refine ⟨part1, ?_⟩
  cases sd with
  | arr xs =>
    by_cases hxs : xs.isEmpty
    · simp [downloadAssetsForTask, hxs]
    · have hrw : ∀ g : FS, downloadAssetsForTask net taskId (.arr xs) g
          = runPlans net (planOptsFrom (taskDirOf taskId) 0 xs)
              ⟨g.mkdir (taskDirOf taskId), [], []⟩ := by
        intro g
        simp [downloadAssetsForTask, hxs]
      have hres' : ∀ p, some p ∈ planOptsFrom (taskDirOf taskId) 0 xs →
          p.valid = true → net p.url ≠ none := by
        intro p hp hv
        refine hres p ?_ hv
        simp only [plansOf, hxs, if_neg]
        exact List.mem_filterMap.2 ⟨some p, hp, rfl⟩
      have hcach := runPlans_establish net (planOptsFrom (taskDirOf taskId) 0 xs)
        ⟨fs.mkdir (taskDirOf taskId), [], []⟩ hnet hres'
      have hdirs : taskDirOf taskId ∈ (downloadAssetsForTask net taskId (.arr xs) fs).fs.dirs := by
        rw [hrw, runPlans_dirs]
        exact mem_mkdir_dirs fs _
      have hmk : ((downloadAssetsForTask net taskId (.arr xs) fs).fs).mkdir (taskDirOf taskId)
          = (downloadAssetsForTask net taskId (.arr xs) fs).fs := by
        unfold FS.mkdir
        rw [if_pos hdirs]
      have hrun2 : downloadAssetsForTask net taskId (.arr xs)
            ((downloadAssetsForTask net taskId (.arr xs) fs).fs)
          = runPlans net (planOptsFrom (taskDirOf taskId) 0 xs)
              ⟨(downloadAssetsForTask net taskId (.arr xs) fs).fs, [], []⟩ := by
        rw [hrw, hmk]
      have hcach2 : ∀ p, some p ∈ planOptsFrom (taskDirOf taskId) 0 xs → p.valid = true →
          ((⟨(downloadAssetsForTask net taskId (.arr xs) fs).fs, [], []⟩ : DLSt)).fs.cachedNonEmpty
            p.out = true := by
        intro p hp hv
        rw [hrw]
        exact hcach p hp hv
      have hall := runPlans_all_cached net (planOptsFrom (taskDirOf taskId) 0 xs)
        ⟨(downloadAssetsForTask net taskId (.arr xs) fs).fs, [], []⟩ hcach2
        (by intro e he; simp at he)
      refine ⟨?_, ?_, ?_⟩
      · rw [hrun2, hrw fs, runPlans_saved_all_resolve net _ _ hres',
          runPlans_saved_all_resolve net _ _ hres']
      · rw [hrun2, hrw fs]
        rw [hrw fs] at hall
        exact hall.1
      · rw [hrun2]
        exact hall.2
  | null => simp [downloadAssetsForTask]
  | undefined => simp [downloadAssetsForTask]
  | bool b => simp [downloadAssetsForTask]
  | num n => simp [downloadAssetsForTask]
  | str s => simp [downloadAssetsForTask]
  | obj fields => simp [downloadAssetsForTask]

/-- C5: per-asset failure isolation.  First conjunct: the ghost download log
holds exactly one entry per planned asset block, in order — so a failed asset
never prevents the remaining assets of the task from being attempted.
Second conjunct: the returned file set is exactly the successful log entries
— failed assets are omitted.  Third conjunct: the completion of any
`downloadAssetsForTask` call marks the task `downloaded = true` and records
exactly the successfully saved files in `localFiles`, regardless of how many
per-asset failures the run had. -/
theorem c5_per_asset_isolation (net : String → Option Nat) (taskId : String) (sd : JsVal) (fs : FS) :
    (downloadAssetsForTask net taskId sd fs).log.map FetchEv.urlOf
        = (plansOf taskId sd).map BlockPlan.url
    ∧ (downloadAssetsForTask net taskId sd fs).saved
        = (downloadAssetsForTask net taskId sd fs).log.filterMap successEntry
    ∧ ∀ (s : PollSt) (k : Nat) (sd2 : JsVal) (s2 : PollSt),
        s.pendingDl.get? k = some sd2 →
        pollStep net taskId s (.dlDone k) = some s2 →
        (s2.cacheRec.getD emptyRec).downloaded = true
        ∧ (s2.cacheRec.getD emptyRec).localFiles
            = (downloadAssetsForTask net taskId sd2 s.fs).saved := by
  refine ⟨?_, ?_, ?_⟩
  · cases sd with
    | arr xs =>
      by_cases hxs : xs.isEmpty
      · simp [downloadAssetsForTask, plansOf, hxs]
      · simp only [downloadAssetsForTask, plansOf, hxs, if_neg, Bool.false_eq_true, ite_false]
        rw [runPlans_log_urls]
        simp
    | null => simp [downloadAssetsForTask, plansOf]
    | undefined => simp [downloadAssetsForTask, plansOf]
    | bool b => simp [downloadAssetsForTask, plansOf]
    | num n => simp [downloadAssetsForTask, plansOf]
    | str s => simp [downloadAssetsForTask, plansOf]
    | obj fields => simp [downloadAssetsForTask, plansOf]
  · cases sd with
    | arr xs =>
      by_cases hxs : xs.isEmpty
      · simp [downloadAssetsForTask, hxs]
      · simp only [downloadAssetsForTask, hxs, Bool.false_eq_true, ite_false]
        exact runPlans_saved_rel net _ _ (by simp)
    | null => simp [downloadAssetsForTask]
    | undefined => simp [downloadAssetsForTask]
    | bool b => simp [downloadAssetsForTask]
    | num n => simp [downloadAssetsForTask]
    | str s => simp [downloadAssetsForTask]
    | obj fields => simp [downloadAssetsForTask]
  · intro s k sd2 s2 hget hstep
    simp only [pollStep] at hstep
    rw [hget] at hstep
    have := Option.some.inj hstep
    subst this
    simp

/-- C4 witness: on a two-track task over a network where every fetch returns
a 7-byte body, the second run returns the same file set as the first. -/
theorem c4_materialization_idempotent_witness :
    (downloadAssetsForTask netPos "t" sdTwo
        ((downloadAssetsForTask netPos "t" sdTwo fsEmpty).fs)).saved
      = (downloadAssetsForTask netPos "t" sdTwo fsEmpty).saved := by
  refine (c4_materialization_idempotent netPos "t" sdTwo fsEmpty ?_ (by decide)).2.1
  intro u sz h
  simp [netPos] at h
  omega

/-- C5 witness: on the two-track task whose first URL is unreachable, the
saved set equals the successful log entries, and a completed Materializer
call marks the task downloaded. -/
theorem c5_per_asset_isolation_witness :
    (downloadAssetsForTask netW "t" sdTwo fsEmpty).saved
      = (downloadAssetsForTask netW "t" sdTwo fsEmpty).log.filterMap successEntry
    ∧ (((pollStep netW "t" pendState (PollEv.dlDone 0)).getD pendState).cacheRec.getD
          emptyRec).downloaded = true := by
  refine ⟨(c5_per_asset_isolation netW "t" sdTwo fsEmpty).2.1, ?_⟩
  exact ((c5_per_asset_isolation netW "t" sdTwo fsEmpty).2.2 pendState 0 (JsVal.arr [])
    ((pollStep netW "t" pendState (PollEv.dlDone 0)).getD pendState) rfl rfl).1
/-! ## Poll scheduler lemmas -/

theorem startState_eq (net : String → Option Nat) (taskId : String) (fs0 : FS) :
    startState net taskId fs0 = runningShape fs0 0 (initRec 0) 1 := by
  rfl

theorem runTick_stopped (net : String → Option Nat) (taskId : String) (s : PollSt)
    (r : Option JsVal) (h : findActive s.timers = none) :
    runTick net taskId s r = s := by
  unfold runTick
  rw [h]

theorem runSeq_stopped (net : String → Option Nat) (taskId : String) (s : PollSt)
    (rs : List (Option JsVal)) (h : findActive s.timers = none) :
    runSeq net taskId s rs = s := by
  induction rs with
  | nil => rfl
  | cons r rs ih =>
    rw [runSeq, runTick_stopped net taskId s r h, ih]

theorem runTick_err_continue (net : String → Option Nat) (taskId : String) (fs0 : FS)
    (k : Nat) (r : TaskRec) (t : Nat) (h : k + 1 < 120) :
    runTick net taskId (runningShape fs0 k r t) none = runningShape fs0 (k + 1) r (t + 1 + 1) := by
  have h2 : ¬ (maxAttempts ≤ k + 1) := by
    simp [maxAttempts]
    omega
  simp [runTick, pollStep, findActive, runningShape, bumpAttempts, clearTimer, attemptsOfTid,
    List.find?, h2]

theorem runTick_ok_continue (net : String → Option Nat) (taskId : String) (fs0 : FS)
    (k : Nat) (r : TaskRec) (t : Nat) (v : JsVal)
    (h1 : registryStatus v ∉ FINAL_STATUSES) (h2 : registryStatus v ∉ ERROR_STATUSES)
    (h3 : k + 1 < 120) :
    runTick net taskId (runningShape fs0 k r t) (some v)
      = runningShape fs0 (k + 1) (updateRecOnTick r v (t + 1)) (t + 1 + 1) := by
  have h4 : ¬ (maxAttempts ≤ k + 1) := by
    simp [maxAttempts]
    omega
  simp [runTick, pollStep, findActive, runningShape, bumpAttempts, clearTimer, attemptsOfTid,
    List.find?, h1, h2, h4]

theorem runTick_final (net : String → Option Nat) (taskId : String) (fs0 : FS)
    (k : Nat) (r : TaskRec) (t : Nat) (v : JsVal)
    (h1 : registryStatus v ∈ FINAL_STATUSES) :
    runTick net taskId (runningShape fs0 k r t) (some v)
      = { timers := [⟨0, k + 1, false⟩], nextTid := 1, handle := false,
          cacheRec := some (finishedRec (updateRecOnTick r v (t + 1))
            ((downloadAssetsForTask net taskId (extractSunoData v) fs0).saved) (t + 1 + 1)),
          inflight := [], pendingDl := [],
          fs := (downloadAssetsForTask net taskId (extractSunoData v) fs0).fs,
          dlCount := 1, dlMarkCount := 1, now := t + 1 + 1 + 1 } := by
  simp [runTick, pollStep, findActive, runningShape, bumpAttempts, clearTimer, attemptsOfTid,
    List.find?, h1, finishedRec]

theorem runTick_stop (net : String → Option Nat) (taskId : String) (fs0 : FS)
    (k : Nat) (r : TaskRec) (t : Nat) (v : JsVal)
    (h1 : registryStatus v ∉ FINAL_STATUSES)
    (h2 : registryStatus v ∈ ERROR_STATUSES ∨ 120 ≤ k + 1) :
    runTick net taskId (runningShape fs0 k r t) (some v)
      = { timers := [⟨0, k + 1, false⟩], nextTid := 1, handle := false,
          cacheRec := some (updateRecOnTick r v (t + 1)),
          inflight := [], pendingDl := [], fs := fs0,
          dlCount := 0, dlMarkCount := 0, now := t + 1 + 1 } := by
  have h2a : registryStatus v ∈ ERROR_STATUSES ∨ maxAttempts ≤ k + 1 := by
    simpa [maxAttempts] using h2
  simp [runTick, pollStep, findActive, runningShape, bumpAttempts, clearTimer, attemptsOfTid,
    List.find?, h1, h2a]

theorem runTick_err_stop (net : String → Option Nat) (taskId : String) (fs0 : FS)
    (k : Nat) (r : TaskRec) (t : Nat) (h : 120 ≤ k + 1) :
    runTick net taskId (runningShape fs0 k r t) none
      = { timers := [⟨0, k + 1, false⟩], nextTid := 1, handle := false,
          cacheRec := some r, inflight := [], pendingDl := [], fs := fs0,
          dlCount := 0, dlMarkCount := 0, now := t + 1 + 1 } := by
  have h2 : maxAttempts ≤ k + 1 := by
    simpa [maxAttempts] using h
  simp [runTick, pollStep, findActive, runningShape, bumpAttempts, clearTimer, attemptsOfTid,
    List.find?, h2]

theorem updateRec_downloaded (r : TaskRec) (v : JsVal) (t : Nat) :
    (updateRecOnTick r v t).downloaded = r.downloaded := rfl

theorem updateRec_status (r : TaskRec) (v : JsVal) (t : Nat) :
    (updateRecOnTick r v t).status = some (registryStatus v) := rfl

theorem runSeq_append (net : String → Option Nat) (taskId : String) (s : PollSt)
    (l1 l2 : List (Option JsVal)) :
    runSeq net taskId s (l1 ++ l2) = runSeq net taskId (runSeq net taskId s l1) l2 := by
  induction l1 generalizing s with
  | nil => rfl
  | cons x rest ih =>
    rw [List.cons_append, runSeq, runSeq, ih]

theorem runSeq_continue (net : String → Option Nat) (taskId : String) (fs0 : FS)
    (pre : List (Option JsVal)) :
    ∀ (k : Nat) (r : TaskRec) (t : Nat),
    (∀ x ∈ pre, ContinueResp x) → k + pre.length ≤ 119 → r.downloaded = false →
    ∃ r2 t2, runSeq net taskId (runningShape fs0 k r t) pre
        = runningShape fs0 (k + pre.length) r2 t2 ∧ r2.downloaded = false := by
  induction pre with
  | nil =>
    intro k r t _ _ hdl
    exact ⟨r, t, by simp [runSeq], hdl⟩
  | cons x rest ih =>
    intro k r t hc hk hdl
    have hk2 : k + 1 + rest.length ≤ 119 := by
      simp at hk
      omega
    have harith : k + 1 + rest.length = k + (x :: rest).length := by
      simp
      omega
    rw [runSeq]
    cases x with
    | none =>
      rw [runTick_err_continue net taskId fs0 k r t (by omega)]
      obtain ⟨r2, t2, heq, h2⟩ :=
        ih (k + 1) r (t + 1 + 1) (fun y hy => hc y (List.mem_cons_of_mem _ hy)) hk2 hdl
      exact ⟨r2, t2, by rw [heq, harith], h2⟩
    | some v =>
      obtain ⟨hf, he⟩ := hc (some v) (List.mem_cons_self _ _)
      rw [runTick_ok_continue net taskId fs0 k r t v hf he (by omega)]
      obtain ⟨r2, t2, heq, h2⟩ :=
        ih (k + 1) (updateRecOnTick r v (t + 1)) (t + 1 + 1)
          (fun y hy => hc y (List.mem_cons_of_mem _ hy)) hk2
          ((updateRec_downloaded r v (t + 1)).trans hdl)
      exact ⟨r2, t2, by rw [heq, harith], h2⟩

theorem findActive_cleared (k : Nat) : findActive [(⟨0, k, false⟩ : TimerRec)] = none := by
  simp [findActive, List.find?]

/-- C1 (amended): within a single poller whose ticks are serialized (each
interval callback finishes before the next fires) and that is not restarted,
the first observed terminal-success status triggers the Materializer exactly
once and sets `downloaded` true exactly once, no matter how many further
tick outcomes follow: the timer is cleared and the handle released before
the download starts, so later ticks never fire.  A poller restarted while
the download is in flight, or an in-flight overlapping tick, can invoke the
Materializer again (see the counterexample). -/
theorem c1_materialization_once_serialized (net : String → Option Nat) (taskId : String) (fs0 : FS)
    (pre post : List (Option JsVal)) (v : JsVal)
    (hpre : ∀ x ∈ pre, ContinueResp x) (hlen : pre.length ≤ 119)
    (hfin : registryStatus v ∈ FINAL_STATUSES) :
    (runSeq net taskId (startState net taskId fs0) (pre ++ some v :: post)).dlCount = 1
    ∧ (runSeq net taskId (startState net taskId fs0) (pre ++ some v :: post)).dlMarkCount = 1
    ∧ ((runSeq net taskId (startState net taskId fs0) (pre ++ some v :: post)).cacheRec.getD
        emptyRec).downloaded = true
    ∧ findActive (runSeq net taskId (startState net taskId fs0)
        (pre ++ some v :: post)).timers = none
    ∧ (runSeq net taskId (startState net taskId fs0) (pre ++ some v :: post)).handle = false := by
  obtain ⟨r2, t2, heq, hdl⟩ :=
    runSeq_continue net taskId fs0 pre 0 (initRec 0) 1 hpre (by omega) rfl
  rw [startState_eq, runSeq_append, heq, runSeq, runTick_final net taskId fs0 _ _ _ v hfin,
    runSeq_stopped _ _ _ _ (findActive_cleared _)]
  refine ⟨rfl, rfl, ?_, findActive_cleared _, rfl⟩
  simp [finishedRec]

/-- C7: if a tick observes a status in the terminal-error set, or the
attempt counter reaches the 120-attempt ceiling, the timer is stopped (no
active timer remains and later ticks are ignored), the poller handle is
released, and no materialization is performed: the Materializer is never
invoked, `downloaded` stays false, the registry status is the last-observed
status, and the file system — in particular its directory set — is
untouched, so no per-task subdirectory is created. -/
theorem c7_terminal_error_or_budget_stop (net : String → Option Nat) (taskId : String) (fs0 : FS)
    (pre post : List (Option JsVal)) (v : JsVal)
    (hpre : ∀ x ∈ pre, ContinueResp x) (hlen : pre.length ≤ 119)
    (hnf : registryStatus v ∉ FINAL_STATUSES)
    (hstop : registryStatus v ∈ ERROR_STATUSES ∨ 120 ≤ pre.length + 1) :
    (runSeq net taskId (startState net taskId fs0) (pre ++ some v :: post)).handle = false
    ∧ findActive (runSeq net taskId (startState net taskId fs0)
        (pre ++ some v :: post)).timers = none
    ∧ (runSeq net taskId (startState net taskId fs0) (pre ++ some v :: post)).dlCount = 0
    ∧ ((runSeq net taskId (startState net taskId fs0) (pre ++ some v :: post)).cacheRec.getD
        emptyRec).downloaded = false
    ∧ ((runSeq net taskId (startState net taskId fs0) (pre ++ some v :: post)).cacheRec.getD
        emptyRec).status = some (registryStatus v)
    ∧ (runSeq net taskId (startState net taskId fs0) (pre ++ some v :: post)).fs = fs0 := by
  obtain ⟨r2, t2, heq, hdl⟩ :=
    runSeq_continue net taskId fs0 pre 0 (initRec 0) 1 hpre (by omega) rfl
  have hstop2 : registryStatus v ∈ ERROR_STATUSES ∨ 120 ≤ 0 + pre.length + 1 := by
    rcases hstop with h | h
    · exact Or.inl h
    · right
      omega
  rw [startState_eq, runSeq_append, heq, runSeq, runTick_stop net taskId fs0 _ _ _ v hnf hstop2,
    runSeq_stopped _ _ _ _ (findActive_cleared _)]
  refine ⟨rfl, findActive_cleared _, rfl, ?_, rfl, rfl⟩
  simpa [updateRec_downloaded] using hdl

/-- C8: a tick whose upstream fetch rejects leaves the registry record
untouched and performs no materialization; unless the attempt budget is
already exhausted the poller keeps running with the attempt counter
incremented against the same budget and the next tick proceeds, while on a
tick that reaches the 120-attempt ceiling the handle is released and the
timer stopped. -/
theorem c8_transient_fetch_failure (net : String → Option Nat) (taskId : String) (fs0 : FS)
    (pre : List (Option JsVal))
    (hpre : ∀ x ∈ pre, ContinueResp x) (hlen : pre.length ≤ 119) :
    ∃ r2 t2,
      runSeq net taskId (startState net taskId fs0) pre = runningShape fs0 pre.length r2 t2
      ∧ (runTick net taskId (runningShape fs0 pre.length r2 t2) none).cacheRec = some r2
      ∧ (runTick net taskId (runningShape fs0 pre.length r2 t2) none).dlCount = 0
      ∧ (pre.length + 1 < 120 →
          runTick net taskId (runningShape fs0 pre.length r2 t2) none
            = runningShape fs0 (pre.length + 1) r2 (t2 + 1 + 1))
      ∧ (120 ≤ pre.length + 1 →
          (runTick net taskId (runningShape fs0 pre.length r2 t2) none).handle = false
          ∧ findActive (runTick net taskId (runningShape fs0 pre.length r2 t2) none).timers
              = none) := by
  obtain ⟨r2, t2, heq, hdl⟩ :=
    runSeq_continue net taskId fs0 pre 0 (initRec 0) 1 hpre (by omega) rfl
  simp only [Nat.zero_add] at heq
  refine ⟨r2, t2, ?_, ?_, ?_, ?_, ?_⟩
  · rw [startState_eq]
    exact heq
  · by_cases hb : pre.length + 1 < 120
    · rw [runTick_err_continue net taskId fs0 _ _ _ hb]
      rfl
    · rw [runTick_err_stop net taskId fs0 _ _ _ (by omega)]
  · by_cases hb : pre.length + 1 < 120
    · rw [runTick_err_continue net taskId fs0 _ _ _ hb]
      rfl
    · rw [runTick_err_stop net taskId fs0 _ _ _ (by omega)]
  · intro hb
    rw [runTick_err_continue net taskId fs0 _ _ _ hb]
  · intro hge
    rw [runTick_err_stop net taskId fs0 _ _ _ hge]
    exact ⟨rfl, findActive_cleared _⟩

theorem countActive_map_eq (f : TimerRec → TimerRec)
    (hf : ∀ a, (f a).active = a.active) (ts : List TimerRec) :
    countActive (ts.map f) = countActive ts := by
  unfold countActive
  induction ts with
  | nil => rfl
  | cons a l ih =>
    rw [List.map_cons, List.filter_cons, List.filter_cons, hf]
    cases ha : a.active
    · rw [if_neg (by simp [ha]), if_neg (by simp [ha])]
      exact ih
    · rw [if_pos (by simp [ha]), if_pos (by simp [ha])]
      simpa using ih

theorem countActive_map_le (f : TimerRec → TimerRec)
    (hf : ∀ a, (f a).active = true → a.active = true) (ts : List TimerRec) :
    countActive (ts.map f) ≤ countActive ts := by
  unfold countActive
  induction ts with
  | nil => exact Nat.le_refl _
  | cons a l ih =>
    rw [List.map_cons, List.filter_cons, List.filter_cons]
    cases hfa : (f a).active
    · rw [if_neg (by simp [hfa])]
      cases ha : a.active
      · rw [if_neg (by simp [ha])]
        exact ih
      · rw [if_pos (by simp [ha])]
        exact Nat.le_trans ih (Nat.le_succ _)
    · rw [if_pos (by simp [hfa]), if_pos (by simp [hf a hfa])]
      simpa using ih

theorem countActive_bump (ts : List TimerRec) (tid : Nat) :
    countActive (bumpAttempts ts tid) = countActive ts := by
  unfold bumpAttempts
  exact countActive_map_eq _ (fun a => by split <;> rfl) ts

theorem countActive_clear_le (ts : List TimerRec) (tid : Nat) :
    countActive (clearTimer ts tid) ≤ countActive ts := by
  unfold clearTimer
  refine countActive_map_le _ (fun a ha => ?_) ts
  by_cases h : (a.tid == tid) = true
  · rw [if_pos h] at ha
    simp at ha
  · rw [if_neg h] at ha
    exact ha

theorem countActive_pollStep_le (net : String → Option Nat) (taskId : String)
    (s s2 : PollSt) (e : PollEv) (h : pollStep net taskId s e = some s2)
    (hne : e ≠ .startPoll) :
    countActive s2.timers ≤ countActive s.timers := by
  cases e with
  | startPoll => exact absurd rfl hne
  | fire tid =>
    simp only [pollStep] at h
    cases hf : s.timers.find? (fun t => t.tid == tid)
    · simp only [hf] at h
      simp at h
    · simp only [hf] at h
      split_ifs at h with hact
      obtain rfl := Option.some.inj h
      exact Nat.le_of_eq (countActive_bump _ _)
  | fetchOk k v =>
    simp only [pollStep] at h
    cases hf : s.inflight.get? k
    · simp only [hf] at h
      simp at h
    · simp only [hf] at h
      split_ifs at h with h1 h2
      · obtain rfl := Option.some.inj h
        exact countActive_clear_le _ _
      · obtain rfl := Option.some.inj h
        exact countActive_clear_le _ _
      · obtain rfl := Option.some.inj h
        exact Nat.le_refl _
  | fetchErr k =>
    simp only [pollStep] at h
    cases hf : s.inflight.get? k
    · simp only [hf] at h
      simp at h
    · simp only [hf] at h
      split_ifs at h with h1
      · obtain rfl := Option.some.inj h
        exact countActive_clear_le _ _
      · obtain rfl := Option.some.inj h
        exact Nat.le_refl _
  | dlDone k =>
    simp only [pollStep] at h
    cases hf : s.pendingDl.get? k
    · simp only [hf] at h
      simp at h
    · simp only [hf] at h
      obtain rfl := Option.some.inj h
      exact Nat.le_refl _

theorem countActive_runTick_le (net : String → Option Nat) (taskId : String)
    (s : PollSt) (r : Option JsVal) :
    countActive (runTick net taskId s r).timers ≤ countActive s.timers := by
  have key : ∀ (sx : PollSt) (e : PollEv), e ≠ .startPoll →
      countActive ((pollStep net taskId sx e).getD sx).timers ≤ countActive sx.timers := by
    intro sx e he
    rcases hp : pollStep net taskId sx e with _ | s2
    · exact Nat.le_refl _
    · simpa using countActive_pollStep_le net taskId sx s2 e hp he
  cases hfa : findActive s.timers
  · rw [runTick_stopped _ _ _ _ hfa]
  case some tmr =>
    unfold runTick
    rw [hfa]
    dsimp only
    have le1 := key s (.fire tmr.tid) (fun hh => PollEv.noConfusion hh)
    generalize hA : (pollStep net taskId s (PollEv.fire tmr.tid)).getD s = sA at le1 ⊢
    cases r with
    | some v =>
      dsimp only
      have le2 := key sA (.fetchOk 0 v) (fun hh => PollEv.noConfusion hh)
      generalize hB : (pollStep net taskId sA (PollEv.fetchOk 0 v)).getD sA = sB at le2 ⊢
      cases hpd : sB.pendingDl with
      | nil => exact Nat.le_trans le2 le1
      | cons a l =>
        have le3 := key sB (.dlDone 0) (fun hh => PollEv.noConfusion hh)
        exact Nat.le_trans le3 (Nat.le_trans le2 le1)
    | none =>
      dsimp only
      have le2 := key sA (.fetchErr 0) (fun hh => PollEv.noConfusion hh)
      generalize hB : (pollStep net taskId sA (PollEv.fetchErr 0)).getD sA = sB at le2 ⊢
      cases hpd : sB.pendingDl with
      | nil => exact Nat.le_trans le2 le1
      | cons a l =>
        have le3 := key sB (.dlDone 0) (fun hh => PollEv.noConfusion hh)
        exact Nat.le_trans le3 (Nat.le_trans le2 le1)

theorem runSeq_countActive_le (net : String → Option Nat) (taskId : String)
    (s : PollSt) (rs : List (Option JsVal)) :
    countActive (runSeq net taskId s rs).timers ≤ countActive s.timers := by
  induction rs generalizing s with
  | nil => exact Nat.le_refl _
  | cons r rest ih =>
    exact Nat.le_trans (ih (runTick net taskId s r)) (countActive_runTick_le net taskId s r)

/-- C3: the poller-handle lifecycle.  Calling `startServerSidePoll` for a
task whose handle exists is an exact no-op; every stop path — terminal
success or terminal error (second conjunct), budget exhaustion on a
successful tick (third) and on a failed fetch (fourth) — removes the handle;
and along any serialized schedule at most one active timer exists for the
task at any time (fifth). -/
theorem c3_poller_handle_lifecycle (net : String → Option Nat) (taskId : String) :
    (∀ s : PollSt, s.handle = true → pollStep net taskId s .startPoll = some s)
    ∧ (∀ (s s2 : PollSt) (k : Nat) (v : JsVal),
        pollStep net taskId s (.fetchOk k v) = some s2 →
        registryStatus v ∈ FINAL_STATUSES ∨ registryStatus v ∈ ERROR_STATUSES →
        s2.handle = false)
    ∧ (∀ (s s2 : PollSt) (k tid : Nat) (v : JsVal),
        pollStep net taskId s (.fetchOk k v) = some s2 →
        s.inflight.get? k = some tid → 120 ≤ attemptsOfTid s.timers tid →
        s2.handle = false)
    ∧ (∀ (s s2 : PollSt) (k tid : Nat),
        pollStep net taskId s (.fetchErr k) = some s2 →
        s.inflight.get? k = some tid → 120 ≤ attemptsOfTid s.timers tid →
        s2.handle = false)
    ∧ (∀ (fs0 : FS) (rs : List (Option JsVal)),
        countActive (runSeq net taskId (startState net taskId fs0) rs).timers ≤ 1) := by
  refine ⟨?_, ?_, ?_, ?_, ?_⟩
  · intro s h
    simp [pollStep, h]
  · intro s s2 k v h hterm
    simp only [pollStep] at h
    cases hf : s.inflight.get? k
    · simp only [hf] at h
      simp at h
    · simp only [hf] at h
      split_ifs at h with h1 h2
      · obtain rfl := Option.some.inj h
        rfl
      · obtain rfl := Option.some.inj h
        rfl
      · rcases hterm with hfin | herr
        · exact absurd hfin h1
        · exact absurd (Or.inl herr) h2
  · intro s s2 k tid v h hget hbud
    simp only [pollStep] at h
    cases hf : s.inflight.get? k
    · simp only [hf] at h
      simp at h
    case some tid2 =>
      rw [hf] at hget
      obtain rfl := Option.some.inj hget
      simp only [hf] at h
      split_ifs at h with h1 h2
      · obtain rfl := Option.some.inj h
        rfl
      · obtain rfl := Option.some.inj h
        rfl
      · exact absurd (Or.inr (by simpa [maxAttempts] using hbud)) h2
  · intro s s2 k tid h hget hbud
    simp only [pollStep] at h
    cases hf : s.inflight.get? k
    · simp only [hf] at h
      simp at h
    case some tid2 =>
      rw [hf] at hget
      obtain rfl := Option.some.inj hget
      simp only [hf] at h
      split_ifs at h with h1
      · obtain rfl := Option.some.inj h
        rfl
      · exact absurd (by simpa [maxAttempts] using hbud) h1
  · intro fs0 rs
    have h1 : countActive (startState net taskId fs0).timers = 1 := rfl
    have := runSeq_countActive_le net taskId (startState net taskId fs0) rs
    omega

/-- C10: starting a poller for a task not yet in the registry installs a
record whose status is null (`none`) — not `PENDING` and not `UNKNOWN` — so
a status query served from the cache before the first tick completes returns
status null with empty `sunoData`, `downloaded = false` and empty
`localFiles`. -/
theorem c10_initial_status_null (net : String → Option Nat) (taskId : String) (s : PollSt)
    (h1 : s.handle = false) (h2 : s.cacheRec = none) :
    pollStep net taskId s .startPoll
      = some { s with
          cacheRec := some (initRec s.now),
          timers := s.timers ++ [⟨s.nextTid, 0, true⟩],
          nextTid := s.nextTid + 1,
          handle := true,
          now := s.now + 1 }
    ∧ (initRec s.now).status = none
    ∧ (initRec s.now).status ≠ some "PENDING"
    ∧ (initRec s.now).status ≠ some "UNKNOWN"
    ∧ taskQueryCached (initRec s.now)
        = ⟨none, JsVal.arr [], false, []⟩ := by
  refine ⟨?_, rfl, by simp [initRec], by simp [initRec], rfl⟩
  simp [pollStep, h1, h2]

/-- C1 counterexample: a concrete schedule in which a poller observes
`SUCCESS`, releases the handle and starts its download, and — while that
download is in flight (`pendingDl` nonempty right after the restart was
accepted, as the second conjunct shows) — a second `startServerSidePoll`
call is accepted; its tick observes `SUCCESS` again, so
`downloadAssetsForTask` is invoked twice for the task and `downloaded` is
assigned twice, refuting "invoked exactly once ... even if ... a new poller
is started while the download is in flight". -/
theorem c1_counterexample :
    (runTrace net0 "t" (initialState fsEmpty) c1Trace).map
        (fun s => (s.dlCount, s.dlMarkCount)) = some (2, 2)
    ∧ (runTrace net0 "t" (initialState fsEmpty) (c1Trace.take 4)).map
        (fun s => (s.pendingDl.length, s.handle)) = some (1, true) := by
  constructor
  · rfl
  · rfl

/-- C1 witness: one tick observing `SUCCESS` materializes once and marks the
record downloaded. -/
theorem c1_materialization_once_serialized_witness :
    (runSeq net0 "t" (startState net0 "t" fsEmpty) [some respSuccess]).dlCount = 1
    ∧ ((runSeq net0 "t" (startState net0 "t" fsEmpty) [some respSuccess]).cacheRec.getD
        emptyRec).downloaded = true := by
  have h := c1_materialization_once_serialized net0 "t" fsEmpty [] [] respSuccess (by simp) (by simp) (by decide)
  exact ⟨h.1, h.2.2.1⟩

/-- C7 witness: `SENSITIVE_WORD_ERROR` on tick 1 stops the poller with
`downloaded = false`, the error recorded as status, and the file system
unchanged. -/
theorem c7_terminal_error_or_budget_stop_witness :
    (runSeq net0 "t" (startState net0 "t" fsEmpty) [some respSensitive]).handle = false
    ∧ ((runSeq net0 "t" (startState net0 "t" fsEmpty) [some respSensitive]).cacheRec.getD
        emptyRec).downloaded = false
    ∧ ((runSeq net0 "t" (startState net0 "t" fsEmpty) [some respSensitive]).cacheRec.getD
        emptyRec).status = some "SENSITIVE_WORD_ERROR"
    ∧ (runSeq net0 "t" (startState net0 "t" fsEmpty) [some respSensitive]).fs = fsEmpty := by
  have h := c7_terminal_error_or_budget_stop net0 "t" fsEmpty [] [] respSensitive (by simp) (by simp) (by decide)
    (Or.inl (by decide))
  refine ⟨h.1, h.2.2.2.1, ?_, h.2.2.2.2.2⟩
  exact h.2.2.2.2.1.trans (by decide)

/-- C8 witness: a failed fetch on the first tick keeps the poller running
with the record unchanged and the attempt counted. -/
theorem c8_transient_fetch_failure_witness :
    ∃ r2 t2,
      runSeq net0 "t" (startState net0 "t" fsEmpty) [] = runningShape fsEmpty 0 r2 t2
      ∧ (runTick net0 "t" (runningShape fsEmpty 0 r2 t2) none).cacheRec = some r2
      ∧ (runTick net0 "t" (runningShape fsEmpty 0 r2 t2) none).dlCount = 0
      ∧ (0 + 1 < 120 →
          runTick net0 "t" (runningShape fsEmpty 0 r2 t2) none
            = runningShape fsEmpty (0 + 1) r2 (t2 + 1 + 1)) := by
  obtain ⟨r2, t2, ha, hb, hc, hd, _⟩ := c8_transient_fetch_failure net0 "t" fsEmpty [] (by simp) (by simp)
  exact ⟨r2, t2, ha, hb, hc, hd⟩

/-- C3 witness: the no-op start, the three stop paths, and the
at-most-one-active-timer bound, each at a concrete state. -/
theorem c3_poller_handle_lifecycle_witness :
    pollStep net0 "t" (runningShape fsEmpty 0 (initRec 0) 1) PollEv.startPoll
        = some (runningShape fsEmpty 0 (initRec 0) 1)
    ∧ ((pollStep net0 "t" pendFetchState (PollEv.fetchOk 0 respSuccess)).getD
        pendFetchState).handle = false
    ∧ ((pollStep net0 "t" budgetState (PollEv.fetchOk 0 respPending)).getD
        budgetState).handle = false
    ∧ ((pollStep net0 "t" budgetState (PollEv.fetchErr 0)).getD budgetState).handle = false
    ∧ countActive (runSeq net0 "t" (startState net0 "t" fsEmpty) [none]).timers ≤ 1 := by
  have h := c3_poller_handle_lifecycle net0 "t"
  refine ⟨h.1 _ rfl, ?_, ?_, ?_, h.2.2.2.2 fsEmpty [none]⟩
  · exact h.2.1 pendFetchState _ 0 respSuccess rfl (Or.inl (by decide))
  · exact h.2.2.1 budgetState _ 0 0 respPending rfl rfl (by decide)
  · exact h.2.2.2.1 budgetState _ 0 0 rfl rfl (by decide)

/-- C10 witness: starting from the empty state installs `initRec 0`, whose
cached query response is null status, no assets, not downloaded. -/
theorem c10_initial_status_null_witness :
    ((pollStep net0 "t" (initialState fsEmpty) PollEv.startPoll).getD
        (initialState fsEmpty)).cacheRec = some (initRec 0)
    ∧ (initRec 0).status = none
    ∧ taskQueryCached (initRec 0) = ⟨none, JsVal.arr [], false, []⟩ := by
  have h := c10_initial_status_null net0 "t" (initialState fsEmpty) rfl rfl
  refine ⟨?_, h.2.1, h.2.2.2.2⟩
  rw [h.1]
  rfl

/-! ## C9 — the /download handler -/

/-- C9 counterexample: for task `t` the registry holds a single materialized
file of kind `cover`; the request supplies a URL whose basename `a.mp3`
matches no local file name, and no local file has kind `audio`.  The claimed
resolution order then requires streaming the remote URL, but the handler
serves the cover file (the `|| entry.localFiles[0]` fallback). -/
theorem c9_counterexample :
    downloadHandler cacheC9 (fun _ => true) (fun _ => true) (some "http://h/a.mp3") (some "t")
        = DlResult.localFile "downloads/t/1_x_cover.png" "1_x_cover.png"
    ∧ coverOnlyRec.localFiles.find? (fun f => f.type == "audio") = none
    ∧ coverOnlyRec.localFiles.find?
        (fun f => strHasSub (pathBasename "/a.mp3").data f.name.data
          || f.name == pathBasename "/a.mp3") = none
    ∧ downloadHandler cacheC9 (fun _ => true) (fun _ => true) (some "http://h/a.mp3") (some "t")
        ≠ DlResult.remote "http://h/a.mp3" "a.mp3" := by
  refine ⟨by decide, by decide, by decide, by decide⟩

/-- C9 (amended): for every asset-retrieval request whose supplied URL (if
any) is well-formed, the handler resolves in this order: a materialized
local file whose name contains the URL's path basename and exists on disk;
else the first local file of kind audio — or, when no local file has kind
audio, the first materialized local file of any kind — when it exists on
disk; else, when a URL is supplied, streaming the remote URL directly with
an attachment filename derived from the URL's path segment (default
`file.bin`); else a bad request. -/
theorem c9_download_resolution_amended (cache : String → Option TaskRec) (fileExists netOk : String → Bool)
    (urlQ tidQ : Option String)
    (hvalid : truthyParam urlQ = true → (urlPathname (urlQ.getD "")).isSome = true) :
    downloadHandler cache fileExists netOk urlQ tidQ
      = resolveSpecC9 cache fileExists netOk urlQ tidQ := by
  unfold downloadHandler resolveSpecC9
  cases ht : truthyParam tidQ
  · simp [ht]
    cases hu : truthyParam urlQ <;> simp [hu]
  · cases hc : cache (tidQ.getD "")
    · simp [ht, hc]
      cases hu : truthyParam urlQ <;> simp [hu]
    case some entry =>
      cases hfi : entry.localFiles with
      | nil =>
        simp [ht, hc, hfi]
        cases hu : truthyParam urlQ <;> simp [hu]
      | cons a l =>
        cases hu : truthyParam urlQ
        · simp [ht, hc, hfi, hu]
        · obtain ⟨pn, hpn⟩ := Option.isSome_iff_exists.1 (hvalid hu)
          simp [ht, hc, hfi, hu, hpn]
          cases hfind : List.find?
              (fun f => strHasSub (pathBasename pn).data f.name.data || f.name == pathBasename pn)
              (a :: l) with
          | some found =>
            cases hfe : fileExists found.path
            · cases hopt : List.find? (fun f => f.type == "audio") (a :: l) with
              | some au =>
                cases hae : fileExists au.path <;> simp [hfind, hfe, hopt, hae, Option.orElse]
              | none =>
                cases hae : fileExists a.path <;> simp [hfind, hfe, hopt, hae, Option.orElse]
            · simp [hfind, hfe]
          | none =>
            cases hopt : List.find? (fun f => f.type == "audio") (a :: l) with
            | some au =>
              cases hae : fileExists au.path <;> simp [hfind, hopt, hae, Option.orElse]
            | none =>
              cases hae : fileExists a.path <;> simp [hfind, hopt, hae, Option.orElse]

/-- C9 witness: the amended resolution function agrees with the handler on
the cover-only scenario. -/
theorem c9_download_resolution_amended_witness :
    downloadHandler cacheC9 (fun _ => true) (fun _ => true) (some "http://h/a.mp3") (some "t")
      = resolveSpecC9 cacheC9 (fun _ => true) (fun _ => true) (some "http://h/a.mp3") (some "t") := by
  exact c9_download_resolution_amended cacheC9 (fun _ => true) (fun _ => true)
    (some "http://h/a.mp3") (some "t") (fun _ => by decide)
